import Mathlib

/-!
Shallow embedding of `derat/bandcamp-discover` (src/main.go) in Lean 4.

The program is a single-shot CLI: it builds a discover-API query URL from
flag values, performs one HTTP GET, decodes the JSON body into a typed
structure, filters the items to those whose `url_hints.item_type` is "a",
and prints one derived album URL per surviving item.

Modelling conventions:
* Strings are Lean `String`s; Go string concatenation is `++`.
* `strings.Split(s, "/")` is modelled by `splitSlash` (character-level
  split, matching the Go semantics for a one-character separator).
* The HTTP transport is a parameter `w : String → FetchResult`: for each
  request URL it either fails with a cause or yields a response body.
  A body is either malformed (not decodable at all) or a JSON value.
* JSON decoding into the fixed Go struct follows `encoding/json`
  unmarshalling semantics for the consumed subset: object keys are
  matched by the exact json tag (later duplicate keys win), a missing or
  null field leaves the zero value, a present field of the wrong type is
  a decode error, unknown fields are ignored, and a top-level `null`
  leaves the whole struct at its zero value.
* `getURLs` returns, besides the url list and optional error, the list
  of URLs actually fetched (to express "single GET, no retry, no network
  access") and two booleans recording whether a response body was
  acquired and whether it was closed before return (`defer Body.Close()`
  runs on every path reached after a successful GET).
* `mainModel` captures the control flow of `main` after flag parsing: stdout
  lines, stderr lines, exit code and the fetch trace.
-/

/-- Decoded shape of the nested `url_hints` object of one response item. -/
structure URLHints where
  subdomain : String
  slug : String
  itemType : String
deriving Repr, DecidableEq

/-- Decoded shape of one entry of the `items` list of the response. -/
structure Item where
  primaryText : String
  secondaryText : String
  urlHints : URLHints
deriving Repr, DecidableEq

/-- Decoded shape of the whole response: the anonymous struct in getURLs. -/
structure Response where
  items : List Item
deriving Repr, DecidableEq

/-- Request URL built by getURLs from the four facet values: fixed base
path, then `g`, `s`, `f` and the fixed pagination parameters by plain
concatenation; `&t=<subgenre>` is appended only when subgenre is non-empty. -/
def buildURL (genre subgenre ranking format : String) : String :=
  let u := "https://bandcamp.com/api/discover/3/get_web?" ++
    "g=" ++ genre ++ "&s=" ++ ranking ++ "&f=" ++ format ++ "&p=0&gn=0&w=0"
  if subgenre != "" then u ++ "&t=" ++ subgenre else u

/-- Output URL derived for one kept item, as in
`fmt.Sprintf("https://%v.bandcamp.com/album/%v", uh.Subdomain, uh.Slug)`. -/
def itemURL (uh : URLHints) : String :=
  "https://" ++ uh.subdomain ++ ".bandcamp.com/album/" ++ uh.slug

/-- The filter/append loop of getURLs over the decoded items: skip items
whose `url_hints.item_type` is not "a", append the derived URL otherwise. -/
def deriveURLs (items : List Item) : List String :=
  items.foldl
    (fun urls item =>
      if item.urlHints.itemType != "a" then urls
      else urls ++ [itemURL item.urlHints])
    []

/-- JSON values, as far as the decoded schema can meet them. -/
inductive Json where
  | null : Json
  | bool (b : Bool) : Json
  | num (n : Int) : Json
  | str (s : String) : Json
  | arr (elems : List Json) : Json
  | obj (fields : List (String × Json)) : Json
deriving Repr

/-- Key lookup in a JSON object, with the later of duplicate keys winning,
as in encoding/json (keys are matched against the json tag verbatim; the
tags of the decoded schema are lowercase snake_case, which is what the API
sends, so the case-insensitive fallback of encoding/json is not modelled). -/
def lookupField (fields : List (String × Json)) (key : String) : Option Json :=
  fields.foldl (fun acc f => if f.1 = key then some f.2 else acc) none

/-- Unmarshal a struct field of Go type `string`: missing or null leaves
the zero value "", a JSON string is taken verbatim, anything else is a
decode error. -/
def decStr : Option Json → Option String
  | none => some ""
  | some Json.null => some ""
  | some (Json.str s) => some s
  | some _ => none

/-- Unmarshal the `url_hints` field: missing or null leaves the zero
struct, an object is decoded field by field, anything else errors. -/
def decodeURLHints : Option Json → Option URLHints
  | none => some ⟨"", "", ""⟩
  | some Json.null => some ⟨"", "", ""⟩
  | some (Json.obj fs) => do
      let sub ← decStr (lookupField fs "subdomain")
      let slug ← decStr (lookupField fs "slug")
      let it ← decStr (lookupField fs "item_type")
      some ⟨sub, slug, it⟩
  | some _ => none

/-- Unmarshal one element of the `items` array: null leaves the zero
item, an object is decoded field by field, anything else errors. -/
def decodeItem : Json → Option Item
  | Json.null => some ⟨"", "", ⟨"", "", ""⟩⟩
  | Json.obj fs => do
      let pt ← decStr (lookupField fs "primary_text")
      let st ← decStr (lookupField fs "secondary_text")
      let uh ← decodeURLHints (lookupField fs "url_hints")
      some ⟨pt, st, uh⟩
  | _ => none

/-- Unmarshal the `items` field: missing or null leaves the zero (nil)
slice, an array is decoded elementwise, anything else errors. -/
def decodeItems : Option Json → Option (List Item)
  | none => some []
  | some Json.null => some []
  | some (Json.arr xs) => xs.mapM decodeItem
  | some _ => none

/-- Unmarshal the whole response into the anonymous struct of getURLs:
the top-level value must be an object (or null, leaving the zero struct). -/
def decodeResponse : Json → Option Response
  | Json.null => some ⟨[]⟩
  | Json.obj fs => (decodeItems (lookupField fs "items")).map Response.mk
  | _ => none

/-- A response body handed back by a successful GET: either not decodable
as JSON at all, or a JSON value (which may still fail to fit the schema). -/
inductive Body where
  | malformed : Body
  | json (j : Json) : Body
deriving Repr

/-- The one decode step `json.NewDecoder(resp.Body).Decode(&data)`. -/
def decodeBody : Body → Option Response
  | Body.malformed => none
  | Body.json j => decodeResponse j

/-- Outcome of `http.Get` on one URL: a transport failure with its cause,
or a response whose body can then be read. -/
inductive FetchResult where
  | fail (cause : String) : FetchResult
  | success (body : Body) : FetchResult
deriving Repr

/-- Errors getURLs can return: the fetch error wraps the request URL and
the underlying cause (`fmt.Errorf("%v: %v", u, err)`); the decode error
is the error from the json decoder, passed through unchanged. -/
inductive GetError where
  | fetchError (url cause : String) : GetError
  | decodeError : GetError
deriving Repr, DecidableEq

/-- The message text of a getURLs error as printed by main; the json
package produces message texts that are not modelled, only the fetch
wrapping is. -/
def GetError.message : GetError → String
  | GetError.fetchError url cause => url ++ ": " ++ cause
  | GetError.decodeError => "json decode error"

/-- Everything observable about one getURLs call: the returned url slice,
the returned error, the URLs fetched over the network in order, and
whether a response body was acquired and closed before returning. -/
structure GetResult where
  urls : List String
  err : Option GetError
  fetched : List String
  bodyAcquired : Bool
  bodyClosed : Bool
deriving Repr, DecidableEq

/-- The getURLs function: build the URL, perform one GET, on transport
failure return nil and the wrapped error; otherwise acquire the body
(closed on every later path by the deferred Close), decode it, and on
success run the filter/append loop. -/
def getURLs (genre subgenre ranking format : String)
    (w : String → FetchResult) : GetResult :=
  let u := buildURL genre subgenre ranking format
  match w u with
  | FetchResult.fail cause =>
      ⟨[], some (GetError.fetchError u cause), [u], false, false⟩
  | FetchResult.success body =>
      match decodeBody body with
      | none => ⟨[], some GetError.decodeError, [u], true, true⟩
      | some data => ⟨deriveURLs data.items, none, [u], true, true⟩

/-- Character-level model of `strings.Split(s, "/")` on the underlying
character list: split around every '/' occurrence; no separators yields
the one-element list holding the input. -/
def splitSlashAux : List Char → List (List Char)
  | [] => [[]]
  | c :: cs =>
      let rest := splitSlashAux cs
      if c = '/' then [] :: rest
      else
        match rest with
        | [] => [[c]]
        | h :: t => (c :: h) :: t

/-- Model of `strings.Split(s, "/")`. -/
def splitSlash (s : String) : List String :=
  (splitSlashAux s.data).map (fun cs => String.mk cs)

/-- Parsing of the -genre flag value in main: two parts become genre and
subgenre, one part leaves the value as the genre with empty subgenre, any
other number of parts is a usage error. -/
def parseGenreFlag (v : String) : Option (String × String) :=
  match splitSlash v with
  | [g, s] => some (g, s)
  | [_] => some (v, "")
  | _ => none

/-- Observable outcome of one program run: stdout lines, stderr lines,
exit code, and the URLs fetched over the network. -/
structure MainResult where
  stdout : List String
  stderr : List String
  exitCode : Nat
  fetched : List String
deriving Repr, DecidableEq

/-- The static genre→subgenre table (Go map allGenres), in source order. -/
def allGenres : List (String × List String) := [
  ("acoustic", ["all-acoustic", "folk", "singer-songwriter", "rock", "pop",
    "guitar", "americana", "electro-acoustic", "instrumental", "piano",
    "bluegrass", "roots"]),
  ("alternative", ["all-alternative", "indie-rock", "industrial", "shoegaze",
    "grunge", "goth", "dream-pop", "emo", "math-rock", "britpop",
    "jangle-pop"]),
  ("ambient", ["all-ambient", "chill-out", "drone", "dark-ambient",
    "electronic", "soundscapes", "field-recordings", "atmospheric",
    "meditation", "noise", "new-age", "idm", "industrial"]),
  ("blues", ["all-blues", "rhythm-blues", "blues-rock", "country-blues",
    "boogie-woogie", "delta-blues", "americana", "electric-blues", "gospel",
    "bluegrass"]),
  ("classical", ["all-classical", "orchestral", "neo-classical",
    "chamber-music", "classical-piano", "contemporary-classical", "baroque",
    "opera", "choral", "modern-classical", "avant-garde"]),
  ("comedy", ["all-comedy", "improv", "stand-up"]),
  ("country", ["all-country", "bluegrass", "country-rock", "americana",
    "country-folk", "alt-country", "country-blues", "western",
    "singer-songwriter", "outlaw", "honky-tonk", "roots", "hillbilly"]),
  ("devotional", ["all-devotional", "christian", "gospel", "meditation",
    "spiritual", "worship", "inspirational"]),
  ("electronic", ["all-electronic", "house", "electronica", "downtempo",
    "techno", "electro", "dubstep", "beats", "dance", "idm", "drum-bass",
    "breaks", "trance", "glitch", "chiptune", "chillwave", "dub", "edm",
    "instrumental", "witch-house", "garage", "juke", "footwork", "vaporwave",
    "synthwave"]),
  ("experimental", ["all-experimental", "noise", "drone", "avant-garde",
    "experimental-rock", "improvisation", "sound-art", "musique-concrete"]),
  ("folk", ["all-folk", "singer-songwriter", "folk-rock", "indie-folk",
    "pop-folk", "traditional", "experimental-folk", "roots"]),
  ("funk", ["all-funk", "funk-jam", "deep-funk", "funk-rock", "jazz-funk",
    "boogie", "g-funk", "rare-groove", "electro", "go-go"]),
  ("hip-hop-rap", ["all-hip-hop-rap", "rap", "underground-hip-hop",
    "instrumental-hip-hop", "trap", "conscious-hip-hop", "boom-bap",
    "beat-tape", "hardcore", "grime"]),
  ("jazz", ["all-jazz", "fusion", "big-band", "nu-jazz", "modern-jazz",
    "swing", "free-jazz", "soul-jazz", "latin-jazz", "vocal-jazz", "bebop",
    "spiritual-jazz"]),
  ("kids", ["all-kids", "family-music", "educational", "music-therapy",
    "lullaby", "baby"]),
  ("latin", ["all-latin", "brazilian", "cumbia", "tango", "latin-rock",
    "flamenco", "salsa", "reggaeton", "merengue", "bolero", "méxico-d.f.",
    "bachata"]),
  ("metal", ["all-metal", "hardcore", "black-metal", "death-metal",
    "thrash-metal", "grindcore", "doom", "post-hardcore", "progressive-metal",
    "metalcore", "sludge-metal", "heavy-metal", "deathcore", "noise"]),
  ("pop", ["all-pop", "indie-pop", "synth-pop", "power-pop", "new-wave",
    "dream-pop", "noise-pop", "experimental-pop", "electro-pop",
    "adult-contemporary", "jangle-pop", "j-pop"]),
  ("punk", ["all-punk", "hardcore-punk", "garage", "pop-punk", "punk-rock",
    "post-punk", "post-hardcore", "thrash", "crust-punk", "folk-punk", "emo",
    "ska", "no-wave"]),
  ("r-b-soul", ["all-r-b-soul", "soul", "r-b", "neo-soul", "gospel",
    "contemporary-r-b", "motown", "urban"]),
  ("reggae", ["all-reggae", "dub", "ska", "roots", "dancehall", "rocksteady",
    "ragga", "lovers-rock"]),
  ("rock", ["all-rock", "indie", "prog-rock", "post-rock", "rock-roll",
    "psychedelic-rock", "hard-rock", "garage-rock", "surf-rock",
    "instrumental", "math-rock", "rockabilly"]),
  ("soundtrack", ["all-soundtrack", "film-music", "video-game-music"]),
  ("spoken-word", ["all-spoken-word", "poetry", "inspirational",
    "storytelling", "self-help"]),
  ("world", ["all-world", "latin", "roots", "african", "tropical", "tribal",
    "brazilian", "celtic", "world-fusion", "cumbia", "gypsy", "new-age",
    "balkan", "reggaeton"])]

/-- Lexicographic strict order on character lists, the Go string `<`
(sort.Strings compares bytewise; the table keys are ASCII, where bytewise
and characterwise lexicographic order agree). -/
def lexLt : List Char → List Char → Bool
  | [], [] => false
  | [], _ :: _ => true
  | _ :: _, [] => false
  | a :: as, b :: bs => if a < b then true else if b < a then false else lexLt as bs

/-- Insertion of a string into a sorted list, for the sort.Strings model:
x goes in front of the first element it is not greater than. -/
def insertSorted (x : String) : List String → List String
  | [] => [x]
  | y :: ys => if lexLt y.data x.data then y :: insertSorted x ys else x :: y :: ys

/-- Model of sort.Strings: lexicographic insertion sort. -/
def sortStrings (l : List String) : List String := l.foldr insertSorted []

/-- Check that adjacent strings are strictly lexicographically
increasing (the sense in which the printed genre list is sorted). -/
def chainLexLt : List String → Bool
  | [] => true
  | [_] => true
  | a :: b :: t => lexLt a.data b.data && chainLexLt (b :: t)

/-- Subgenre list of a genre in the table (Go map indexing allGenres[g]). -/
def subgenresOf (g : String) : List String :=
  ((allGenres.foldl (fun acc p => if p.1 = g then some p.2 else acc) none).getD [])

/-- Lines printed by printGenres: genres sorted lexicographically, each
genre line followed by its subgenres indented by two spaces. -/
def printGenresLines : List String :=
  (sortStrings (allGenres.map Prod.fst)).foldr
    (fun g acc => (g :: (subgenresOf g).map (fun s => "  " ++ s)) ++ acc) []

/-- The program after flag parsing: -list-genres prints the table and
exits 0 with no fetch; a malformed -genre value prints a usage message to
stderr and exits 2 with no fetch; otherwise getURLs runs, an error is
printed to stderr with exit 1, and on success each url becomes one stdout
line with exit 0. -/
def mainModel (genre : String) (listGenres : Bool) (ranking format : String)
    (w : String → FetchResult) : MainResult :=
  if listGenres then
    ⟨printGenresLines, [], 0, []⟩
  else
    match parseGenreFlag genre with
    | none =>
        ⟨[], ["-genre value should contain genre or genre/subgenre"], 2, []⟩
    | some (g, s) =>
        let r := getURLs g s ranking format w
        match r.err with
        | some e => ⟨[], ["Failed getting URLs: " ++ e.message], 1, r.fetched⟩
        | none => ⟨r.urls, [], 0, r.fetched⟩

/-!  Theorems about the embedding. -/

/-- The append loop of getURLs, started from any accumulator, produces
the accumulator followed by the filtered/mapped items. -/
theorem foldl_derive_append (items : List Item) (acc : List String) :
    items.foldl
      (fun urls item =>
        if item.urlHints.itemType != "a" then urls
        else urls ++ [itemURL item.urlHints]) acc
    = acc ++ (items.filter (fun it => it.urlHints.itemType == "a")).map
        (fun it => itemURL it.urlHints) := by
  induction items generalizing acc with
  | nil => simp
  | cons it its ih =>
      rw [List.foldl_cons, ih]
      by_cases h : it.urlHints.itemType = "a" <;>
        simp [List.filter_cons, h]

/-- C1: getURLs keeps exactly the items whose urlHints.itemType is "a",
maps each kept item to https://{subdomain}.bandcamp.com/album/{slug}
verbatim, returns the URLs in response order; the three-item example
keeps its two album entries in order, and zero items yield the empty
sequence without error. -/
theorem c1_getURLs_keeps_albums_in_order :
    (∀ items : List Item,
      deriveURLs items
        = (items.filter (fun it => it.urlHints.itemType == "a")).map
            (fun it => "https://" ++ it.urlHints.subdomain ++
              ".bandcamp.com/album/" ++ it.urlHints.slug))
    ∧ deriveURLs
        [⟨"", "", ⟨"foo", "bar", "a"⟩⟩, ⟨"", "", ⟨"x", "y", "t"⟩⟩,
         ⟨"", "", ⟨"baz", "qux", "a"⟩⟩]
        = ["https://foo.bandcamp.com/album/bar",
           "https://baz.bandcamp.com/album/qux"]
    ∧ deriveURLs [] = []
    ∧ (∀ (genre subgenre ranking format : String) (w : String → FetchResult)
        (j : Json) (resp : Response),
        w (buildURL genre subgenre ranking format)
            = FetchResult.success (Body.json j) →
        decodeResponse j = some resp →
        getURLs genre subgenre ranking format w
          = ⟨deriveURLs resp.items, none,
             [buildURL genre subgenre ranking format], true, true⟩) := by
  refine ⟨fun items => ?_, rfl, rfl, fun genre subgenre ranking format w j resp hw hd => ?_⟩
  · rw [deriveURLs, foldl_derive_append]
    simp [itemURL]
  · simp [getURLs, hw, decodeBody, hd]

/-- C1 witness: the connection conjunct applied at a concrete world that
returns a decodable empty response. -/
theorem c1_getURLs_keeps_albums_in_order_witness :
    getURLs "g" "sub" "top" "all"
      (fun _ => FetchResult.success (Body.json (Json.obj [("items", Json.arr [])])))
      = ⟨deriveURLs ([] : List Item), none, [buildURL "g" "sub" "top" "all"],
         true, true⟩ :=
  c1_getURLs_keeps_albums_in_order.2.2.2 "g" "sub" "top" "all"
    (fun _ => FetchResult.success (Body.json (Json.obj [("items", Json.arr [])])))
    (Json.obj [("items", Json.arr [])]) ⟨[]⟩ rfl rfl

/-- C2: the built request URL is the fixed base path concatenated with
g, s, f and the fixed pagination parameters p=0, gn=0, w=0 by plain
string concatenation, with t=subgenre appended exactly when subgenre is
non-empty; with subgenre "" no t parameter is appended. -/
theorem c2_buildURL_query_components :
    (∀ genre subgenre ranking format : String, subgenre ≠ "" →
      buildURL genre subgenre ranking format
        = "https://bandcamp.com/api/discover/3/get_web?" ++ "g=" ++ genre ++
          "&s=" ++ ranking ++ "&f=" ++ format ++ "&p=0&gn=0&w=0" ++ "&t=" ++
          subgenre)
    ∧ (∀ genre ranking format : String,
      buildURL genre "" ranking format
        = "https://bandcamp.com/api/discover/3/get_web?" ++ "g=" ++ genre ++
          "&s=" ++ ranking ++ "&f=" ++ format ++ "&p=0&gn=0&w=0") := by
  constructor
  · intro genre subgenre ranking format h
    simp [buildURL, bne_iff_ne, h]
  · intro genre ranking format
    simp [buildURL]

/-- C2 witness: the non-empty-subgenre conjunct applied at subgenre "b". -/
theorem c2_buildURL_query_components_witness :
    buildURL "a" "b" "top" "all"
      = "https://bandcamp.com/api/discover/3/get_web?" ++ "g=" ++ "a" ++
        "&s=" ++ "top" ++ "&f=" ++ "all" ++ "&p=0&gn=0&w=0" ++ "&t=" ++ "b" :=
  c2_buildURL_query_components.1 "a" "b" "top" "all" (by decide)

/-- C4: on a transport failure of the single GET, getURLs returns no
URLs and an error carrying both the attempted request URL and the
underlying cause; exactly one fetch is attempted (no retry), and the
printed message wraps url and cause as url: cause. -/
theorem c4_fetch_failure_wraps_url_and_cause
    (genre subgenre ranking format cause : String)
    (w : String → FetchResult)
    (hw : w (buildURL genre subgenre ranking format)
            = FetchResult.fail cause) :
    getURLs genre subgenre ranking format w
      = ⟨[], some (GetError.fetchError (buildURL genre subgenre ranking format)
          cause), [buildURL genre subgenre ranking format], false, false⟩
    ∧ (GetError.fetchError (buildURL genre subgenre ranking format)
          cause).message
        = buildURL genre subgenre ranking format ++ ": " ++ cause := by
  refine ⟨?_, rfl⟩
  simp [getURLs, hw]

/-- C4 witness: a world refusing every connection. -/
theorem c4_fetch_failure_wraps_url_and_cause_witness :
    getURLs "ambient" "drone" "top" "all"
        (fun _ => FetchResult.fail "connection refused")
      = ⟨[], some (GetError.fetchError (buildURL "ambient" "drone" "top" "all")
          "connection refused"), [buildURL "ambient" "drone" "top" "all"],
          false, false⟩ :=
  (c4_fetch_failure_wraps_url_and_cause "ambient" "drone" "top" "all"
    "connection refused" (fun _ => FetchResult.fail "connection refused")
    rfl).1

/-- C5: on a response body that does not decode into the expected JSON
shape, getURLs returns the decode error and no partial results: the url
slice alongside the error is empty. -/
theorem c5_decode_failure_no_partial_results
    (genre subgenre ranking format : String) (body : Body)
    (w : String → FetchResult)
    (hw : w (buildURL genre subgenre ranking format)
            = FetchResult.success body)
    (hd : decodeBody body = none) :
    getURLs genre subgenre ranking format w
      = ⟨[], some GetError.decodeError,
          [buildURL genre subgenre ranking format], true, true⟩ := by
  simp [getURLs, hw, hd]

/-- C5 witness: a world delivering a body that is not valid JSON. -/
theorem c5_decode_failure_no_partial_results_witness :
    getURLs "jazz" "" "new" "vinyl" (fun _ => FetchResult.success Body.malformed)
      = ⟨[], some GetError.decodeError, [buildURL "jazz" "" "new" "vinyl"],
          true, true⟩ :=
  c5_decode_failure_no_partial_results "jazz" "" "new" "vinyl" Body.malformed
    (fun _ => FetchResult.success Body.malformed) rfl rfl

/-- C7: whenever the GET succeeds (a response body is acquired), the
body is closed before getURLs returns, on the decode-failure path and
the success path alike. -/
theorem c7_body_closed_on_every_exit_path
    (genre subgenre ranking format : String) (w : String → FetchResult)
    (h : (getURLs genre subgenre ranking format w).bodyAcquired = true) :
    (getURLs genre subgenre ranking format w).bodyClosed = true := by
  simp only [getURLs] at h ⊢
  cases hw : w (buildURL genre subgenre ranking format) with
  | fail cause => rw [hw] at h; simp at h
  | success body =>
      cases hd : decodeBody body <;> simp [hd]

/-- C7 witness: the body acquired for a malformed response is closed. -/
theorem c7_body_closed_on_every_exit_path_witness :
    (getURLs "pop" "" "top" "all"
        (fun _ => FetchResult.success Body.malformed)).bodyAcquired = true
    ∧ (getURLs "pop" "" "top" "all"
        (fun _ => FetchResult.success Body.malformed)).bodyClosed = true :=
  ⟨rfl, c7_body_closed_on_every_exit_path "pop" "" "top" "all"
    (fun _ => FetchResult.success Body.malformed) rfl⟩

/-- The derive loop reads nothing of an item beyond its urlHints: from
any accumulator, two item lists with equal urlHints projections fold to
the same url list. -/
theorem foldl_derive_eq_of_urlHints_eq :
    ∀ (l1 l2 : List Item) (acc : List String),
    l1.map Item.urlHints = l2.map Item.urlHints →
    l1.foldl
      (fun urls item =>
        if item.urlHints.itemType != "a" then urls
        else urls ++ [itemURL item.urlHints]) acc
    = l2.foldl
      (fun urls item =>
        if item.urlHints.itemType != "a" then urls
        else urls ++ [itemURL item.urlHints]) acc
  | [], [], _, _ => rfl
  | [], _ :: _, _, h => by simp at h
  | _ :: _, [], _, h => by simp at h
  | a :: l1, b :: l2, acc, h => by
      rw [List.map_cons, List.map_cons, List.cons.injEq] at h
      rw [List.foldl_cons, List.foldl_cons, h.1]
      exact foldl_derive_eq_of_urlHints_eq l1 l2 _ h.2

/-- C10: the derived output URL list depends only on the url_hints of
each item: responses agreeing on every urlHints field but differing
arbitrarily in primaryText and secondaryText derive identical URL
sequences. -/
theorem c10_output_depends_only_on_urlHints
    (items1 items2 : List Item)
    (h : items1.map Item.urlHints = items2.map Item.urlHints) :
    deriveURLs items1 = deriveURLs items2 :=
  foldl_derive_eq_of_urlHints_eq items1 items2 [] h

/-- C10 witness: two one-item responses with different titles and
artists but the same url_hints derive the same output. -/
theorem c10_output_depends_only_on_urlHints_witness :
    deriveURLs [⟨"Album One", "Artist One", ⟨"foo", "bar", "a"⟩⟩]
      = deriveURLs [⟨"Other Title", "Other Artist", ⟨"foo", "bar", "a"⟩⟩] :=
  c10_output_depends_only_on_urlHints
    [⟨"Album One", "Artist One", ⟨"foo", "bar", "a"⟩⟩]
    [⟨"Other Title", "Other Artist", ⟨"foo", "bar", "a"⟩⟩] rfl

/-- The character-level split never yields an empty part list. -/
theorem splitSlashAux_ne_nil (cs : List Char) : splitSlashAux cs ≠ [] := by
  cases cs with
  | nil => simp [splitSlashAux]
  | cons c cs =>
      unfold splitSlashAux
      by_cases h : c = '/'
      · simp [h]
      · simp only [if_neg h]
        cases splitSlashAux cs <;> simp

/-- The split has one more part than the input has separators. -/
theorem splitSlashAux_length (cs : List Char) :
    (splitSlashAux cs).length = cs.count '/' + 1 := by
  induction cs with
  | nil => rfl
  | cons c cs ih =>
      unfold splitSlashAux
      by_cases h : c = '/'
      · simp [h, List.count_cons, ih]
      · cases hrest : splitSlashAux cs with
        | nil => exact absurd hrest (splitSlashAux_ne_nil cs)
        | cons hd tl =>
            rw [hrest] at ih
            simp [h, hrest, List.count_cons, Ne.symm h] at ih ⊢
            omega

/-- splitSlash part count equals the slash count plus one. -/
theorem splitSlash_length (v : String) :
    (splitSlash v).length = v.data.count '/' + 1 := by
  simp [splitSlash, splitSlashAux_length]

/-- A -genre value with two or more slashes fails to parse. -/
theorem parseGenreFlag_none_of_two_slashes (v : String)
    (h : 2 ≤ v.data.count '/') : parseGenreFlag v = none := by
  have hlen := splitSlash_length v
  unfold parseGenreFlag
  cases hs : splitSlash v with
  | nil => rfl
  | cons a t =>
      cases t with
      | nil => rw [hs] at hlen; simp at hlen; omega
      | cons b t2 =>
          cases t2 with
          | nil => rw [hs] at hlen; simp at hlen; omega
          | cons c t3 => rfl

/-- A -genre value with at most one slash always parses. -/
theorem parseGenreFlag_some_of_le_one_slash (v : String)
    (h : v.data.count '/' ≤ 1) :
    ∃ g s, parseGenreFlag v = some (g, s) := by
  have hlen := splitSlash_length v
  unfold parseGenreFlag
  cases hs : splitSlash v with
  | nil => rw [hs] at hlen; simp at hlen
  | cons a t =>
      cases t with
      | nil => exact ⟨v, "", rfl⟩
      | cons b t2 =>
          cases t2 with
          | nil => exact ⟨a, b, rfl⟩
          | cons c t3 => rw [hs] at hlen; simp at hlen; omega

/-- getURLs performs exactly one GET, on the built URL, on every path. -/
theorem getURLs_fetched (genre subgenre ranking format : String)
    (w : String → FetchResult) :
    (getURLs genre subgenre ranking format w).fetched
      = [buildURL genre subgenre ranking format] := by
  simp only [getURLs]
  cases w (buildURL genre subgenre ranking format) with
  | fail c => rfl
  | success b => cases hd : decodeBody b <;> simp [hd]

/-- Once the -genre value parses, the program fetches exactly the built
URL, whatever the network then does. -/
theorem mainModel_fetched (v g s ranking format : String)
    (w : String → FetchResult) (hp : parseGenreFlag v = some (g, s)) :
    (mainModel v false ranking format w).fetched
      = [buildURL g s ranking format] := by
  simp only [mainModel, if_neg (Bool.false_ne_true), hp]
  cases herr : (getURLs g s ranking format w).err <;>
    simp [herr, getURLs_fetched]

/-- C3: the -genre value a/b splits into genre a and subgenre b, the
value a yields genre a with empty subgenre, and any value with more
than one slash is a usage error: the message goes to stderr, the exit
code is 2, and no network call is made. -/
theorem c3_genre_flag_split_and_usage_error :
    parseGenreFlag "a/b" = some ("a", "b")
    ∧ parseGenreFlag "a" = some ("a", "")
    ∧ ∀ (v ranking format : String) (w : String → FetchResult),
        2 ≤ v.data.count '/' →
        mainModel v false ranking format w
          = ⟨[], ["-genre value should contain genre or genre/subgenre"],
              2, []⟩ := by
  refine ⟨rfl, rfl, fun v ranking format w h => ?_⟩
  simp [mainModel, parseGenreFlag_none_of_two_slashes v h]

/-- C3 witness: the usage-error conjunct applied at the value a/b/c. -/
theorem c3_genre_flag_split_and_usage_error_witness :
    mainModel "a/b/c" false "top" "all" (fun _ => FetchResult.fail "e")
      = ⟨[], ["-genre value should contain genre or genre/subgenre"],
          2, []⟩ :=
  c3_genre_flag_split_and_usage_error.2.2 "a/b/c" "top" "all"
    (fun _ => FetchResult.fail "e") (by decide)

/-- C9: every -genre value with at most one slash parses without a
usage error, including the empty string, /b (empty genre part) and a/
(empty subgenre part); the parts feed the query builder verbatim, so
/b fetches a URL with an empty g= value and a t=b parameter, and a/
fetches a URL without a t parameter; genre non-emptiness is never
enforced. -/
theorem c9_no_validation_of_genre_parts :
    (∀ v : String, v.data.count '/' ≤ 1 →
      ∃ g s, parseGenreFlag v = some (g, s))
    ∧ parseGenreFlag "" = some ("", "")
    ∧ parseGenreFlag "/b" = some ("", "b")
    ∧ (∀ (ranking format : String) (w : String → FetchResult),
        (mainModel "/b" false ranking format w).fetched
          = ["https://bandcamp.com/api/discover/3/get_web?" ++ "g=" ++ "" ++
             "&s=" ++ ranking ++ "&f=" ++ format ++ "&p=0&gn=0&w=0" ++
             "&t=" ++ "b"])
    ∧ parseGenreFlag "a/" = some ("a", "")
    ∧ (∀ (ranking format : String) (w : String → FetchResult),
        (mainModel "a/" false ranking format w).fetched
          = ["https://bandcamp.com/api/discover/3/get_web?" ++ "g=" ++ "a" ++
             "&s=" ++ ranking ++ "&f=" ++ format ++ "&p=0&gn=0&w=0"]) := by
  refine ⟨parseGenreFlag_some_of_le_one_slash, rfl, rfl,
    fun ranking format w => ?_, rfl, fun ranking format w => ?_⟩
  · rw [mainModel_fetched "/b" "" "b" ranking format w rfl]
    rfl
  · rw [mainModel_fetched "a/" "a" "" ranking format w rfl]
    rfl

/-- C9 witness: the universal conjunct applied at the empty value, and
the fetch conjuncts applied at a concrete ranking, format and world. -/
theorem c9_no_validation_of_genre_parts_witness :
    (∃ g s, parseGenreFlag "" = some (g, s))
    ∧ (mainModel "/b" false "top" "all"
        (fun _ => FetchResult.fail "e")).fetched
        = ["https://bandcamp.com/api/discover/3/get_web?" ++ "g=" ++ "" ++
           "&s=" ++ "top" ++ "&f=" ++ "all" ++ "&p=0&gn=0&w=0" ++
           "&t=" ++ "b"] :=
  ⟨c9_no_validation_of_genre_parts.1 "" (by decide),
   c9_no_validation_of_genre_parts.2.2.2.1 "top" "all"
     (fun _ => FetchResult.fail "e")⟩

/-- Membership in an insertion is membership in the inserted element or
the original list. -/
theorem mem_insertSorted (x a : String) (l : List String) :
    a ∈ insertSorted x l ↔ a = x ∨ a ∈ l := by
  induction l with
  | nil => simp [insertSorted]
  | cons y ys ih =>
      unfold insertSorted
      by_cases h : lexLt y.data x.data = true
      · rw [if_pos h]
        simp only [List.mem_cons, ih]
        tauto
      · rw [if_neg h]
        simp only [List.mem_cons]

/-- The sort keeps every element of its input. -/
theorem mem_sortStrings (a : String) (l : List String) (h : a ∈ l) :
    a ∈ sortStrings l := by
  induction l with
  | nil => simp at h
  | cons b t ih =>
      show a ∈ insertSorted b (sortStrings t)
      rcases List.mem_cons.mp h with h1 | h2
      · exact (mem_insertSorted b a _).mpr (Or.inl h1)
      · exact (mem_insertSorted b a _).mpr (Or.inr (ih h2))

/-- Every key of the printed key list yields a genre line. -/
theorem mem_blocks_of_key (g : String) (l : List String) (h : g ∈ l) :
    g ∈ l.foldr
      (fun k acc => (k :: (subgenresOf k).map (fun s => "  " ++ s)) ++ acc)
      [] := by
  induction l with
  | nil => simp at h
  | cons b t ih =>
      rw [List.foldr_cons]
      rcases List.mem_cons.mp h with h1 | h2
      · subst h1; exact List.mem_append_left _ (List.mem_cons_self _ _)
      · exact List.mem_append_right _ (ih h2)

/-- Every subgenre of a printed key yields a two-space-indented line. -/
theorem mem_blocks_of_sub (g s : String) (l : List String) (hg : g ∈ l)
    (hs : s ∈ subgenresOf g) :
    ("  " ++ s) ∈ l.foldr
      (fun k acc => (k :: (subgenresOf k).map (fun s => "  " ++ s)) ++ acc)
      [] := by
  induction l with
  | nil => simp at hg
  | cons b t ih =>
      rw [List.foldr_cons]
      rcases List.mem_cons.mp hg with h1 | h2
      · subst h1
        exact List.mem_append_left _
          (List.mem_cons_of_mem _ (List.mem_map_of_mem _ hs))
      · exact List.mem_append_right _ (ih h2)

/-- Indexing the table by the key of one of its entries returns the
subgenre list of that entry (the keys of the table are distinct). -/
theorem subgenresOf_keys : ∀ p ∈ allGenres, subgenresOf p.1 = p.2 := by
  decide

/-- C6: with -list-genres set the program prints the static table —
every genre, in lexicographic order, each genre line followed by its
subgenres indented by exactly two spaces — exits with code 0, and
fetches nothing; the sort leaves the already-sorted key list unchanged,
the printed genre keys are strictly increasing, and every genre and
every two-space-indented subgenre of the table occurs in the output. -/
theorem c6_list_genres_prints_table_no_network :
    (∀ (genre ranking format : String) (w : String → FetchResult),
      mainModel genre true ranking format w = ⟨printGenresLines, [], 0, []⟩)
    ∧ sortStrings (allGenres.map Prod.fst) = allGenres.map Prod.fst
    ∧ chainLexLt (sortStrings (allGenres.map Prod.fst)) = true
    ∧ (∀ g ∈ allGenres.map Prod.fst, g ∈ printGenresLines)
    ∧ (∀ p ∈ allGenres, ∀ s ∈ p.2, ("  " ++ s) ∈ printGenresLines) := by
  refine ⟨fun genre ranking format w => rfl, by decide, by decide, ?_, ?_⟩
  · intro g hg
    exact mem_blocks_of_key g _ (mem_sortStrings g _ hg)
  · intro p hp s hs
    have h2 := subgenresOf_keys p hp
    exact mem_blocks_of_sub p.1 s _
      (mem_sortStrings p.1 _ (List.mem_map_of_mem Prod.fst hp))
      (h2 ▸ hs)

/-- C6 witness: a genre line and an indented subgenre line of one
concrete table entry occur in the printed output. -/
theorem c6_list_genres_prints_table_no_network_witness :
    "acoustic" ∈ printGenresLines ∧ ("  " ++ "folk") ∈ printGenresLines :=
  ⟨c6_list_genres_prints_table_no_network.2.2.2.1 "acoustic" (by decide),
   c6_list_genres_prints_table_no_network.2.2.2.2
     ("acoustic", ["all-acoustic", "folk", "singer-songwriter", "rock",
       "pop", "guitar", "americana", "electro-acoustic", "instrumental",
       "piano", "bluegrass", "roots"])
     (by decide) "folk" (by decide)⟩

/-- C8: an item object without url_hints, or with a url_hints object
without item_type, still decodes (missing fields become the empty
string) and is then silently excluded by the filter, since the empty
string differs from "a". -/
theorem c8_missing_hints_decode_to_empty_and_are_excluded :
    (∀ (fs : List (String × Json)) (pt st : String),
      lookupField fs "url_hints" = none →
      decStr (lookupField fs "primary_text") = some pt →
      decStr (lookupField fs "secondary_text") = some st →
      decodeItem (Json.obj fs) = some ⟨pt, st, ⟨"", "", ""⟩⟩
        ∧ deriveURLs [⟨pt, st, ⟨"", "", ""⟩⟩] = [])
    ∧ (∀ (fs hf : List (String × Json)) (pt st sub slug : String),
      lookupField fs "url_hints" = some (Json.obj hf) →
      lookupField hf "item_type" = none →
      decStr (lookupField hf "subdomain") = some sub →
      decStr (lookupField hf "slug") = some slug →
      decStr (lookupField fs "primary_text") = some pt →
      decStr (lookupField fs "secondary_text") = some st →
      decodeItem (Json.obj fs) = some ⟨pt, st, ⟨sub, slug, ""⟩⟩
        ∧ deriveURLs [⟨pt, st, ⟨sub, slug, ""⟩⟩] = []) := by
  constructor
  · intro fs pt st hu hp hs
    refine ⟨?_, rfl⟩
    simp [decodeItem, hp, hs, hu, decodeURLHints]
  · intro fs hf pt st sub slug hu hit hsub hslug hp hs
    refine ⟨?_, rfl⟩
    have hit2 : decStr (lookupField hf "item_type") = some "" := by
      rw [hit]
      rfl
    simp [decodeItem, hp, hs, hu, decodeURLHints, hsub, hslug, hit2]

/-- C8 witness: a concrete item carrying only the two text fields, and
a concrete item whose url_hints lacks item_type. -/
theorem c8_missing_hints_decode_to_empty_and_are_excluded_witness :
    (decodeItem (Json.obj [("primary_text", Json.str "T"),
        ("secondary_text", Json.str "A")])
      = some ⟨"T", "A", ⟨"", "", ""⟩⟩
      ∧ deriveURLs [⟨"T", "A", ⟨"", "", ""⟩⟩] = [])
    ∧ (decodeItem (Json.obj [("primary_text", Json.str "T"),
        ("secondary_text", Json.str "A"),
        ("url_hints", Json.obj [("subdomain", Json.str "foo"),
          ("slug", Json.str "bar")])])
      = some ⟨"T", "A", ⟨"foo", "bar", ""⟩⟩
      ∧ deriveURLs [⟨"T", "A", ⟨"foo", "bar", ""⟩⟩] = []) :=
  ⟨c8_missing_hints_decode_to_empty_and_are_excluded.1
      [("primary_text", Json.str "T"), ("secondary_text", Json.str "A")]
      "T" "A" rfl rfl rfl,
   c8_missing_hints_decode_to_empty_and_are_excluded.2
      [("primary_text", Json.str "T"), ("secondary_text", Json.str "A"),
       ("url_hints", Json.obj [("subdomain", Json.str "foo"),
         ("slug", Json.str "bar")])]
      [("subdomain", Json.str "foo"), ("slug", Json.str "bar")]
      "T" "A" "foo" "bar" rfl rfl rfl rfl rfl rfl⟩
